import Mathlib

/-!
Shallow embedding of the coupon-window selection algorithm of the
coupons-widget repository.

The embedded code is `convertMOEXData`, `getCouponStatus` and `formatDate`
from `src/coupons-widget.ts` (the TypeScript widget), together with the
legacy script version of `convertMOEXData` (the unnamed IIFE source file).

Modelling decisions, each tied to the JavaScript semantics of the source:

* A date string is parsed by the platform (`new Date(s).getTime()`), which
  yields either a finite timestamp or NaN.  We model this with an explicit
  parameter `parse : String → Option Int`; `none` plays the role of NaN.
  Time values are `Int` at day granularity: the source truncates "today" to
  midnight before any comparison, so only the order of day-level values
  matters to the algorithm.
* `[...].sort((a, b) => new Date(a.coupondate) - new Date(b.coupondate))`:
  per the ECMAScript specification, a comparator result of NaN is treated
  as +0 by SortCompare, and `Array.prototype.sort` must be a stable sort
  agreeing with SortCompare whenever the comparator is a consistent
  comparison function for the elements; when an unparseable date makes the
  comparator inconsistent, the order is implementation-defined and engines
  genuinely differ.  `sortCoupons` below is one conformant realization (a
  stable insertion sort driven by the comparator); it coincides with every
  conformant engine exactly on inputs where the comparator is consistent,
  in particular whenever every date parses.  Ordering statements are
  therefore scoped to all-parseable inputs; on other inputs only
  permutation- and length-based facts about the sorted sequence are used,
  which hold for every conformant engine order.
* `findIndex(coupon => new Date(coupon.coupondate) >= currentDate)`:
  a NaN date compares false, so an unparseable date never satisfies the
  predicate.  `List.findIdx` returns the length when nothing matches,
  which is exactly the sentinel the source installs for `-1`.
* Truthiness of `coupon.valueprc` / `coupon.value_rub` is modelled with
  `Option String`: `none` stands for a falsy field (absent, empty, 0).
* `formatDate` converts the timestamp to calendar day/month/year and
  formats `DD.MM.YYYY`; on an unparseable date the JS getters return NaN
  and the rendered text is `NaN.NaN.NaN`.
-/

/-- A raw MOEX coupon record as consumed by `convertMOEXData`:
the `coupondate` string plus the two displayed value fields,
where `none` models a falsy JavaScript value. -/
structure RawCoupon where
  coupondate : String
  valueprc : Option String
  value_rub : Option String
deriving DecidableEq, Repr

/-- The output unit of `convertMOEXData` (interface `CouponData`):
formatted payment date, rate text, amount text and the two status flags. -/
structure CouponData where
  paymentDate : String
  rate : String
  amount : String
  current : Bool
  disabled : Bool
deriving DecidableEq, Repr

/-- The sort comparator
`(a, b) => new Date(a.coupondate).getTime() - new Date(b.coupondate).getTime()`.
When either date is unparseable the subtraction is NaN, which the
ECMAScript SortCompare operation treats as +0, i.e. as a tie. -/
def cmpCoupon (parse : String → Option Int) (a b : RawCoupon) : Int :=
  match parse a.coupondate, parse b.coupondate with
  | some x, some y => x - y
  | _, _ => 0

/-- Stable insertion of one element into an accumulated list: the new
element goes after every element comparing ≤ 0 against it.  This is the
stable-sort placement rule of `Array.prototype.sort` whenever the
comparator is consistent; when the comparator is inconsistent (an
unparseable date ties with everything) engines are free to order
differently, so the placement performed here must not be relied on for
such inputs. -/
def sortInsert (parse : String → Option Int) (x : RawCoupon) :
    List RawCoupon → List RawCoupon
  | [] => [x]
  | y :: ys =>
    if cmpCoupon parse y x ≤ 0 then y :: sortInsert parse x ys
    else x :: y :: ys

/-- `[...couponsData].sort((a, b) => ...)`: a stable sort by `cmpCoupon`,
realised by inserting the elements left to right.  One conformant
realization of the ECMAScript sort: it matches every engine when the
comparator is consistent on the input (in particular when all dates
parse); on inconsistent inputs the engine order is implementation-defined
and only the permutation and length of this result are faithful. -/
def sortCoupons (parse : String → Option Int) (l : List RawCoupon) :
    List RawCoupon :=
  l.foldl (fun acc x => sortInsert parse x acc) []

/-- The `findIndex` predicate
`coupon => new Date(coupon.coupondate) >= currentDate`:
false whenever the date is unparseable (NaN comparisons are false). -/
def couponUpcoming (parse : String → Option Int) (today : Int)
    (c : RawCoupon) : Bool :=
  match parse c.coupondate with
  | some t => today ≤ t
  | none => false

/-- `firstUpcomingIndex` over the sorted list, with the source's sentinel:
`findIndex` gives -1 when nothing matches and the code then installs the
length, which is precisely `List.findIdx`. -/
def firstUpcomingIdx (parse : String → Option Int) (today : Int)
    (sorted : List RawCoupon) : Nat :=
  sorted.findIdx (couponUpcoming parse today)

/-- `startIndex = Math.max(0, firstUpcomingIndex - 2)`;
truncated subtraction on `Nat` is exactly the clamped subtraction. -/
def startIdx (i : Nat) : Nat := i - 2

/-- The TypeScript `endIndex`:
`Math.min(length, startIndex === 0 ? firstUpcomingIndex + 5 : firstUpcomingIndex + 3)`. -/
def endIdxTS (len i : Nat) : Nat :=
  min len (if startIdx i = 0 then i + 5 else i + 3)

/-- The legacy script's `endIndex`: `Math.min(length, firstUpcomingIndex + 3)`. -/
def endIdxLegacy (len i : Nat) : Nat := min len (i + 3)

/-- `sortedCoupons.slice(startIndex, endIndex)` as drop-then-take. -/
def sliceWindow (s e : Nat) (sorted : List RawCoupon) : List RawCoupon :=
  (sorted.drop s).take (e - s)

/-- The selected window of the TypeScript implementation, over the
already-sorted list. -/
def selectWindow (parse : String → Option Int) (today : Int)
    (sorted : List RawCoupon) : List RawCoupon :=
  let i := firstUpcomingIdx parse today sorted
  sliceWindow (startIdx i) (endIdxTS sorted.length i) sorted

/-- The selected window of the legacy script, over the sorted list. -/
def selectWindowLegacy (parse : String → Option Int) (today : Int)
    (sorted : List RawCoupon) : List RawCoupon :=
  let i := firstUpcomingIdx parse today sorted
  sliceWindow (startIdx i) (endIdxLegacy sorted.length i) sorted

/-- `currentCouponDate`: the date string at `firstUpcomingIndex` when that
index is in bounds, else the `null` sentinel. -/
def currentCouponDateOf (parse : String → Option Int) (today : Int)
    (sorted : List RawCoupon) : Option String :=
  (sorted[firstUpcomingIdx parse today sorted]?).map (fun c => c.coupondate)

/-- `getCouponStatus(couponDate, currentDate, currentCouponDate)`:
the strict-equality check against `currentCouponDate` comes first, then the
timestamp comparisons, in which an unparseable date (NaN) fails every
branch and falls through to the empty status. -/
def getCouponStatus (parse : String → Option Int) (couponDate : String)
    (today : Int) (currentCouponDate : Option String) : String :=
  if (match currentCouponDate with
      | some d => couponDate == d
      | none => false) then "current"
  else
    match parse couponDate with
    | some t =>
      if t < today then "disabled"
      else if t == today then "upcoming"
      else ""
    | none => ""

/-- Civil calendar date (year, month, day) from a day count with day 0 =
1970-01-01, the standard era-based conversion used to model the JS
`getFullYear` / `getMonth` / `getDate` accessors at day granularity. -/
def civilFromDays (z0 : Int) : Int × Int × Int :=
  let z := z0 + 719468
  let era := (if 0 ≤ z then z else z - 146096) / 146097
  let doe := z - era * 146097
  let yoe := (doe - doe / 1460 + doe / 36524 - doe / 146096) / 365
  let y := yoe + era * 400
  let doy := doe - (365 * yoe + yoe / 4 - yoe / 100)
  let mp := (5 * doy + 2) / 153
  let d := doy - (153 * mp + 2) / 5 + 1
  let m := mp + (if mp < 10 then 3 else -9)
  (y + (if m ≤ 2 then 1 else 0), m, d)

/-- `padStart(2, "0")` for a calendar component. -/
def pad2 (n : Int) : String :=
  if 0 ≤ n ∧ n < 10 then "0" ++ toString n else toString n

/-- `formatDate(dateString)`: `DD.MM.YYYY`, zero-padded; an unparseable
date renders as `NaN.NaN.NaN` (the JS getters all return NaN). -/
def formatDate (parse : String → Option Int) (s : String) : String :=
  match parse s with
  | none => "NaN.NaN.NaN"
  | some t =>
    let c := civilFromDays t
    pad2 c.2.2 ++ "." ++ pad2 c.2.1 ++ "." ++ toString c.1

/-- The `selectedCoupons.map(...)` body of the TypeScript implementation:
status flags from `getCouponStatus`, rate and amount from the truthiness
checks `coupon.valueprc ? ... : "-"`. -/
def couponEntry (parse : String → Option Int) (today : Int)
    (currentCouponDate : Option String) (coupon : RawCoupon) : CouponData :=
  let status := getCouponStatus parse coupon.coupondate today currentCouponDate
  { paymentDate := formatDate parse coupon.coupondate
    rate := match coupon.valueprc with
      | some v => v ++ "%"
      | none => "-"
    amount := match coupon.value_rub with
      | some v => v ++ "₽"
      | none => "-"
    current := status == "current"
    disabled := status == "disabled" }

/-- The legacy map body: template literals without a truthiness guard, so a
falsy field is stringified (`undefined` interpolates as the text
`undefined`). -/
def couponEntryLegacy (parse : String → Option Int) (today : Int)
    (currentCouponDate : Option String) (coupon : RawCoupon) : CouponData :=
  let status := getCouponStatus parse coupon.coupondate today currentCouponDate
  { paymentDate := formatDate parse coupon.coupondate
    rate := (match coupon.valueprc with
      | some v => v
      | none => "undefined") ++ "%"
    amount := (match coupon.value_rub with
      | some v => v
      | none => "undefined") ++ "₽"
    current := status == "current"
    disabled := status == "disabled" }

/-- `convertMOEXData` of the TypeScript widget: guard on empty input, sort,
locate the anchor, slice the window, determine `currentCouponDate`, map to
display entries. -/
def convertMOEXData (parse : String → Option Int) (today : Int)
    (couponsData : List RawCoupon) : List CouponData :=
  if couponsData.length = 0 then []
  else
    let sorted := sortCoupons parse couponsData
    (selectWindow parse today sorted).map
      (couponEntry parse today (currentCouponDateOf parse today sorted))

/-- `convertMOEXData` of the legacy script: identical pipeline except for
the `endIndex` formula and the rate/amount formatting. -/
def convertMOEXDataLegacy (parse : String → Option Int) (today : Int)
    (couponsData : List RawCoupon) : List CouponData :=
  if couponsData.length = 0 then []
  else
    let sorted := sortCoupons parse couponsData
    (selectWindowLegacy parse today sorted).map
      (couponEntryLegacy parse today (currentCouponDateOf parse today sorted))

/-- The post-sort pipeline of `convertMOEXData`: locate the anchor, slice
the window, determine `currentCouponDate`, map to display entries.  The
program applies exactly this to whatever order the engine's sort
returns, so `convertMOEXData` is this composed with `sortCoupons`
(see `convertMOEXData_eq_fromSorted`), and an engine whose sort returns a
different implementation-defined order of an inconsistent-comparator
input feeds that order through this same function. -/
def convertFromSorted (parse : String → Option Int) (today : Int)
    (sorted : List RawCoupon) : List CouponData :=
  (selectWindow parse today sorted).map
    (couponEntry parse today (currentCouponDateOf parse today sorted))

/-- Number of entries flagged current in an output sequence. -/
def countCurrent (out : List CouponData) : Nat :=
  out.countP (fun e => e.current)

/-- Concrete parse function for witnesses: a fixed table of date strings
mapped to day counts; every other string is unparseable (NaN). -/
def demoParse : String → Option Int := fun s =>
  if s = "d0" then some 0
  else if s = "d10" then some 10
  else if s = "d20" then some 20
  else if s = "d30" then some 30
  else if s = "d40" then some 40
  else if s = "d50" then some 50
  else if s = "d60" then some 60
  else if s = "d70" then some 70
  else if s = "d80" then some 80
  else if s = "d90" then some 90
  else none

/-- A witness record with a parseable date and both value fields present. -/
def demoCoupon (d : String) : RawCoupon := ⟨d, some "7", some "35"⟩

/-- A witness record whose date string is unparseable. -/
def badCoupon : RawCoupon := ⟨"BAD", some "7", some "35"⟩

/-- Ten records at day values 0, 10, ..., 90, already in ascending order. -/
def demoList10 : List RawCoupon :=
  [demoCoupon "d0", demoCoupon "d10", demoCoupon "d20", demoCoupon "d30",
   demoCoupon "d40", demoCoupon "d50", demoCoupon "d60", demoCoupon "d70",
   demoCoupon "d80", demoCoupon "d90"]

/-- Seven records at day values 0, 10, ..., 60. -/
def demoList7 : List RawCoupon :=
  [demoCoupon "d0", demoCoupon "d10", demoCoupon "d20", demoCoupon "d30",
   demoCoupon "d40", demoCoupon "d50", demoCoupon "d60"]

/-- Six records at day values 0, 10, ..., 50. -/
def demoList6 : List RawCoupon :=
  [demoCoupon "d0", demoCoupon "d10", demoCoupon "d20", demoCoupon "d30",
   demoCoupon "d40", demoCoupon "d50"]

/-- Five records at day values 0, 10, ..., 40. -/
def demoList5 : List RawCoupon :=
  [demoCoupon "d0", demoCoupon "d10", demoCoupon "d20", demoCoupon "d30",
   demoCoupon "d40"]

/-- Three records at day values 0, 10, 20. -/
def demoList3 : List RawCoupon :=
  [demoCoupon "d0", demoCoupon "d10", demoCoupon "d20"]

/-- Chronological order on records as far as parseable dates are concerned:
whenever both dates parse, the first is not later than the second. -/
def validLe (parse : String → Option Int) (a b : RawCoupon) : Prop :=
  ∀ x y, parse a.coupondate = some x → parse b.coupondate = some y → x ≤ y

/-! Supporting lemmas about the embedded pipeline. -/

theorem sortInsert_perm (parse : String → Option Int) (x : RawCoupon) :
    ∀ l : List RawCoupon, List.Perm (sortInsert parse x l) (x :: l) := by
  intro l
  induction l with
  | nil => exact List.Perm.refl _
  | cons y ys ih =>
    by_cases hc : cmpCoupon parse y x ≤ 0
    · simp only [sortInsert, if_pos hc]
      exact (ih.cons y).trans (List.Perm.swap x y ys)
    · simp only [sortInsert, if_neg hc]
      exact List.Perm.refl _

theorem sortCoupons_perm (parse : String → Option Int) (l : List RawCoupon) :
    List.Perm (sortCoupons parse l) l := by
  suffices h : ∀ (m : List RawCoupon) (acc : List RawCoupon),
      List.Perm (m.foldl (fun acc x => sortInsert parse x acc) acc) (m ++ acc) by
    simpa [sortCoupons] using h l []
  intro m
  induction m with
  | nil => intro acc; simp
  | cons x xs ih =>
    intro acc
    simp only [List.foldl_cons, List.cons_append]
    exact (ih (sortInsert parse x acc)).trans
      (((sortInsert_perm parse x acc).append_left xs).trans List.perm_middle)

theorem sortCoupons_length (parse : String → Option Int) (l : List RawCoupon) :
    (sortCoupons parse l).length = l.length :=
  (sortCoupons_perm parse l).length_eq

theorem pairwise_sortInsert (parse : String → Option Int) (x : RawCoupon)
    (hx : (parse x.coupondate).isSome) :
    ∀ acc : List RawCoupon, (∀ c ∈ acc, (parse c.coupondate).isSome) →
      acc.Pairwise (validLe parse) →
      (sortInsert parse x acc).Pairwise (validLe parse) := by
  intro acc
  induction acc with
  | nil => intro _ _; simp [sortInsert]
  | cons y ys ih =>
    intro hvalid h
    rw [List.pairwise_cons] at h
    obtain ⟨hy, hys⟩ := h
    by_cases hc : cmpCoupon parse y x ≤ 0
    · simp only [sortInsert, if_pos hc]
      rw [List.pairwise_cons]
      refine ⟨fun z hz => ?_,
        ih (fun c hcm => hvalid c (List.mem_cons_of_mem y hcm)) hys⟩
      rcases List.mem_cons.mp ((sortInsert_perm parse x ys).mem_iff.mp hz) with rfl | hzy
      · intro a b ha hb
        simp only [cmpCoupon, ha, hb] at hc
        omega
      · exact hy z hzy
    · simp only [sortInsert, if_neg hc]
      rw [List.pairwise_cons]
      refine ⟨fun z hz => ?_, List.pairwise_cons.mpr ⟨hy, hys⟩⟩
      rcases List.mem_cons.mp hz with rfl | hzy
      · intro a b ha hb
        simp only [cmpCoupon, hb, ha] at hc
        omega
      · intro a b ha hb
        cases hyv : parse y.coupondate with
        | none => simp [cmpCoupon, hyv, ha] at hc
        | some v =>
          have h1 : v ≤ b := hy z hzy v b hyv hb
          simp only [cmpCoupon, hyv, ha] at hc
          omega

theorem pairwise_sortCoupons (parse : String → Option Int) (l : List RawCoupon)
    (hl : ∀ c ∈ l, (parse c.coupondate).isSome) :
    (sortCoupons parse l).Pairwise (validLe parse) := by
  suffices h : ∀ (m : List RawCoupon) (acc : List RawCoupon),
      (∀ c ∈ m, (parse c.coupondate).isSome) →
      (∀ c ∈ acc, (parse c.coupondate).isSome) →
      acc.Pairwise (validLe parse) →
      (m.foldl (fun acc x => sortInsert parse x acc) acc).Pairwise (validLe parse) by
    exact h l [] hl (by simp) List.Pairwise.nil
  intro m
  induction m with
  | nil => intro acc _ _ hacc; simpa using hacc
  | cons x xs ih =>
    intro acc hm hacc hpair
    simp only [List.foldl_cons]
    refine ih (sortInsert parse x acc)
      (fun c hc => hm c (List.mem_cons_of_mem x hc)) (fun c hc => ?_)
      (pairwise_sortInsert parse x (hm x (List.mem_cons_self x xs)) acc hacc
        hpair)
    rcases List.mem_cons.mp ((sortInsert_perm parse x acc).mem_iff.mp hc) with
      rfl | hca
    · exact hm _ (List.mem_cons_self _ _)
    · exact hacc c hca

theorem selectWindow_sublist (parse : String → Option Int) (today : Int)
    (sorted : List RawCoupon) :
    List.Sublist (selectWindow parse today sorted) sorted := by
  simp only [selectWindow, sliceWindow]
  exact (List.take_sublist _ _).trans (List.drop_sublist _ _)

theorem selectWindow_length (parse : String → Option Int) (today : Int)
    (sorted : List RawCoupon) :
    (selectWindow parse today sorted).length =
      min (endIdxTS sorted.length (firstUpcomingIdx parse today sorted) -
            startIdx (firstUpcomingIdx parse today sorted))
          (sorted.length - startIdx (firstUpcomingIdx parse today sorted)) := by
  simp [selectWindow, sliceWindow]

theorem mem_slice_of_le_of_lt {α : Type} (l : List α) (s e i : Nat)
    (hs : s ≤ i) (hie : i < e) (hil : i < l.length) :
    l.get ⟨i, hil⟩ ∈ (l.drop s).take (e - s) := by
  obtain ⟨j, rfl⟩ := Nat.exists_eq_add_of_le hs
  have h1 : j < ((l.drop s).take (e - s)).length := by
    simp only [List.length_take, List.length_drop]
    omega
  refine List.mem_iff_getElem.mpr ⟨j, h1, ?_⟩
  rw [List.getElem_take, List.getElem_drop]
  rfl

theorem anchor_mem_selectWindow (parse : String → Option Int) (today : Int)
    (sorted : List RawCoupon)
    (h : firstUpcomingIdx parse today sorted < sorted.length) :
    sorted.get ⟨firstUpcomingIdx parse today sorted, h⟩ ∈
      selectWindow parse today sorted := by
  simp only [selectWindow, sliceWindow]
  refine mem_slice_of_le_of_lt sorted _ _ _ ?_ ?_ h
  · unfold startIdx; omega
  · unfold endIdxTS startIdx
    by_cases h0 : firstUpcomingIdx parse today sorted - 2 = 0
    · rw [if_pos h0]; omega
    · rw [if_neg h0]; omega

theorem couponEntry_current (parse : String → Option Int) (today : Int)
    (ccd : Option String) (c : RawCoupon) :
    (couponEntry parse today ccd c).current =
      (getCouponStatus parse c.coupondate today ccd == "current") := rfl

theorem status_current_iff (parse : String → Option Int) (d a : String)
    (today : Int) :
    (getCouponStatus parse d today (some a) == "current") = (d == a) := by
  unfold getCouponStatus
  by_cases h : (d == a) = true
  · rw [if_pos h, h]; rfl
  · have ha : (d == a) = false := by simpa using h
    rw [if_neg h, ha]
    split
    · split
      · rfl
      · split
        · rfl
        · rfl
    · rfl

theorem status_none_not_current (parse : String → Option Int) (d : String)
    (today : Int) :
    (getCouponStatus parse d today none == "current") = false := by
  unfold getCouponStatus
  rw [if_neg (by simp)]
  split
  · split
    · rfl
    · split
      · rfl
      · rfl
  · rfl

/-! Claim theorems. -/

/-- C1 counterexample: six records with the anchor at sorted index 2, so the
anchor has at least 2 records strictly before it (indices 0, 1) and at
least 3 after it (indices 3, 4, 5), yet `convertMOEXData` returns a window
of 6 entries, not min(5, length) = 5: with `startIndex` clamped to 0 the
code extends `endIndex` to `firstUpcomingIndex + 5`. -/
theorem convert_window_exactly_five_cx :
    firstUpcomingIdx demoParse 15 (sortCoupons demoParse demoList6) = 2 ∧
    demoList6.length = 6 ∧
    (convertMOEXData demoParse 15 demoList6).length = 6 := by decide

/-- C1 (amended): when the anchor (first record dated on or after today)
has at least 3 records strictly before it and at least 3 records after it
in sorted order, the window returned by `convertMOEXData` has length
exactly 5. -/
theorem convert_window_exactly_five (parse : String → Option Int)
    (today : Int) (l : List RawCoupon)
    (h3 : 3 ≤ firstUpcomingIdx parse today (sortCoupons parse l))
    (h4 : firstUpcomingIdx parse today (sortCoupons parse l) + 4 ≤ l.length) :
    (convertMOEXData parse today l).length = 5 := by
  have hsl := sortCoupons_length parse l
  have hle : firstUpcomingIdx parse today (sortCoupons parse l) ≤
      (sortCoupons parse l).length := List.findIdx_le_length _
  have hl0 : ¬ l.length = 0 := by omega
  simp only [convertMOEXData, if_neg hl0, List.length_map, selectWindow_length,
    endIdxTS, startIdx]
  rw [if_neg (show ¬ (firstUpcomingIdx parse today (sortCoupons parse l) - 2 = 0)
    by omega)]
  omega

/-- C1 witness: seven records with the anchor at sorted index 3 (three
records before, three after); the theorem yields a window of exactly 5. -/
theorem convert_window_exactly_five_witness :
    (convertMOEXData demoParse 25 demoList7).length = 5 :=
  convert_window_exactly_five demoParse 25 demoList7 (by decide) (by decide)

/-- C2 counterexample: an anchor exists (index 2 is in bounds on six
records), yet the selection window of `convertMOEXData` has more than 5
entries. -/
theorem convert_window_bound_cx :
    firstUpcomingIdx demoParse 15 (sortCoupons demoParse demoList6) <
      demoList6.length ∧
    5 < (convertMOEXData demoParse 15 demoList6).length := by decide

/-- C2 (amended): whenever the anchor index is at least 3 (so the window
start is not clamped to 0), the selection window of `convertMOEXData`
never exceeds 5 entries; only when the anchor sits at sorted index ≤ 2 may
the forward side be extended. -/
theorem convert_window_bound (parse : String → Option Int) (today : Int)
    (l : List RawCoupon)
    (h3 : 3 ≤ firstUpcomingIdx parse today (sortCoupons parse l)) :
    (convertMOEXData parse today l).length ≤ 5 := by
  by_cases hl0 : l.length = 0
  · simp [convertMOEXData, hl0]
  · have hsl := sortCoupons_length parse l
    have hle : firstUpcomingIdx parse today (sortCoupons parse l) ≤
        (sortCoupons parse l).length := List.findIdx_le_length _
    simp only [convertMOEXData, if_neg hl0, List.length_map,
      selectWindow_length, endIdxTS, startIdx]
    rw [if_neg (show ¬ (firstUpcomingIdx parse today (sortCoupons parse l) - 2
      = 0) by omega)]
    omega

/-- C2 witness: ten records with the anchor at sorted index 5; the window
stays within 5 entries. -/
theorem convert_window_bound_witness :
    (convertMOEXData demoParse 45 demoList10).length ≤ 5 :=
  convert_window_bound demoParse 45 demoList10 (by decide)

/-- C9: for every input the window of `convertMOEXData` has at most 7
entries, a window of 6 or more entries forces the anchor to sit at sorted
index 1 or 2 (the clamped-start branch), and both lengths 6 and 7 are
reachable (seven records with the anchor at index 1, resp. index 2). -/
theorem convert_window_le_seven (parse : String → Option Int) (today : Int)
    (l : List RawCoupon) :
    (convertMOEXData parse today l).length ≤ 7 ∧
    (6 ≤ (convertMOEXData parse today l).length →
      1 ≤ firstUpcomingIdx parse today (sortCoupons parse l) ∧
      firstUpcomingIdx parse today (sortCoupons parse l) ≤ 2) ∧
    (convertMOEXData demoParse 5 demoList7).length = 6 ∧
    (convertMOEXData demoParse 15 demoList7).length = 7 := by
  refine ⟨?_, ?_, by decide, by decide⟩ <;>
  · by_cases hl0 : l.length = 0
    · simp [convertMOEXData, hl0]
    · have hsl := sortCoupons_length parse l
      have hle : firstUpcomingIdx parse today (sortCoupons parse l) ≤
          (sortCoupons parse l).length := List.findIdx_le_length _
      simp only [convertMOEXData, if_neg hl0, List.length_map,
        selectWindow_length, endIdxTS, startIdx]
      by_cases h2 : firstUpcomingIdx parse today (sortCoupons parse l) - 2 = 0
      · rw [if_pos h2]; omega
      · rw [if_neg h2]; omega

/-- C9 witness: on the length-7 instance the implication of the theorem
places the anchor at index 1 or 2 (here it is 2). -/
theorem convert_window_le_seven_witness :
    1 ≤ firstUpcomingIdx demoParse 15 (sortCoupons demoParse demoList7) ∧
    firstUpcomingIdx demoParse 15 (sortCoupons demoParse demoList7) ≤ 2 :=
  (convert_window_le_seven demoParse 15 demoList7).2.1 (by decide)

theorem countCurrent_convert (parse : String → Option Int) (today : Int)
    (l : List RawCoupon) (hl0 : ¬ l.length = 0) :
    countCurrent (convertMOEXData parse today l) =
      (selectWindow parse today (sortCoupons parse l)).countP
        (fun c => getCouponStatus parse c.coupondate today
          (currentCouponDateOf parse today (sortCoupons parse l)) == "current") := by
  simp only [convertMOEXData, if_neg hl0, countCurrent, List.countP_map]
  rfl

theorem countCurrent_eq_one_of_anchor (parse : String → Option Int)
    (today : Int) (l : List RawCoupon)
    (hnd : (l.map (fun c => c.coupondate)).Nodup)
    (hl0 : ¬ l.length = 0)
    (ha : firstUpcomingIdx parse today (sortCoupons parse l) <
      (sortCoupons parse l).length) :
    countCurrent (convertMOEXData parse today l) = 1 := by
  have hccd : currentCouponDateOf parse today (sortCoupons parse l) =
      some (((sortCoupons parse l).get
        ⟨firstUpcomingIdx parse today (sortCoupons parse l), ha⟩).coupondate) := by
    simp [currentCouponDateOf, List.getElem?_eq_getElem ha]
  have hcount2 : countCurrent (convertMOEXData parse today l) =
      (selectWindow parse today (sortCoupons parse l)).countP
        (fun c => c.coupondate == ((sortCoupons parse l).get
          ⟨firstUpcomingIdx parse today (sortCoupons parse l), ha⟩).coupondate) := by
    rw [countCurrent_convert parse today l hl0, hccd]
    exact List.countP_congr (fun c _ => by
      rw [status_current_iff parse c.coupondate _ today])
  have hup : (selectWindow parse today (sortCoupons parse l)).countP
      (fun c => c.coupondate == ((sortCoupons parse l).get
        ⟨firstUpcomingIdx parse today (sortCoupons parse l), ha⟩).coupondate) ≤
      l.countP (fun c => c.coupondate == ((sortCoupons parse l).get
        ⟨firstUpcomingIdx parse today (sortCoupons parse l), ha⟩).coupondate) := by
    calc (selectWindow parse today (sortCoupons parse l)).countP _
        ≤ (sortCoupons parse l).countP _ :=
          (selectWindow_sublist parse today (sortCoupons parse l)).countP_le _
      _ = l.countP _ := (sortCoupons_perm parse l).countP_eq _
  have hcnt : l.countP (fun c => c.coupondate == ((sortCoupons parse l).get
      ⟨firstUpcomingIdx parse today (sortCoupons parse l), ha⟩).coupondate) =
      (l.map (fun c => c.coupondate)).count
        (((sortCoupons parse l).get
          ⟨firstUpcomingIdx parse today (sortCoupons parse l), ha⟩).coupondate) := by
    rw [List.count_eq_countP, List.countP_map]
    rfl
  have hone : (l.map (fun c => c.coupondate)).count
      (((sortCoupons parse l).get
        ⟨firstUpcomingIdx parse today (sortCoupons parse l), ha⟩).coupondate) ≤ 1 :=
    List.nodup_iff_count_le_one.mp hnd _
  have hpos : 0 < (selectWindow parse today (sortCoupons parse l)).countP
      (fun c => c.coupondate == ((sortCoupons parse l).get
        ⟨firstUpcomingIdx parse today (sortCoupons parse l), ha⟩).coupondate) :=
    List.countP_pos_iff.mpr
      ⟨(sortCoupons parse l).get
        ⟨firstUpcomingIdx parse today (sortCoupons parse l), ha⟩,
        anchor_mem_selectWindow parse today (sortCoupons parse l) ha, by simp⟩
  omega

theorem countCurrent_eq_zero_of_no_anchor (parse : String → Option Int)
    (today : Int) (l : List RawCoupon) (hl0 : ¬ l.length = 0)
    (ha : ¬ firstUpcomingIdx parse today (sortCoupons parse l) <
      (sortCoupons parse l).length) :
    countCurrent (convertMOEXData parse today l) = 0 := by
  have hccd0 : currentCouponDateOf parse today (sortCoupons parse l) = none := by
    simp only [currentCouponDateOf]
    rw [List.getElem?_eq_none (by omega)]
    rfl
  rw [countCurrent_convert parse today l hl0, hccd0]
  refine List.countP_eq_zero.mpr (fun c _ => ?_)
  simp [status_none_not_current]

/-- C3 counterexample: two records sharing the same date string, both on or
after today: `getCouponStatus` flags current by exact string equality with
`currentCouponDate`, so both window entries come out with
`current = true`, contradicting "at most one entry has isCurrent = true". -/
theorem convert_one_current_cx :
    countCurrent (convertMOEXData demoParse 0
      [demoCoupon "d10", demoCoupon "d10"]) = 2 := by decide

/-- C3 (amended): when the records carry pairwise distinct date strings,
at most one entry of the window returned by `convertMOEXData` has
`current = true`; exactly one when an anchor exists (it is the first
record dated on or after today); and if no entry is current then no record
of the selected window is dated on or after today. (With duplicate date
strings every record matching the anchor's exact date string is flagged
current.) -/
theorem convert_one_current (parse : String → Option Int) (today : Int)
    (l : List RawCoupon) (hnd : (l.map (fun c => c.coupondate)).Nodup) :
    countCurrent (convertMOEXData parse today l) ≤ 1 ∧
    (firstUpcomingIdx parse today (sortCoupons parse l) < l.length →
      countCurrent (convertMOEXData parse today l) = 1) ∧
    (countCurrent (convertMOEXData parse today l) = 0 →
      ∀ c ∈ selectWindow parse today (sortCoupons parse l),
        couponUpcoming parse today c = false) := by
  by_cases hl0 : l.length = 0
  · have hnil : l = [] := List.length_eq_zero.mp hl0
    subst hnil
    refine ⟨by simp [convertMOEXData, countCurrent], by simp, ?_⟩
    intro _ c hc
    simp [selectWindow, sliceWindow, sortCoupons] at hc
  · have hsl := sortCoupons_length parse l
    by_cases ha : firstUpcomingIdx parse today (sortCoupons parse l) <
        (sortCoupons parse l).length
    · have h1 := countCurrent_eq_one_of_anchor parse today l hnd hl0 ha
      exact ⟨by omega, fun _ => h1, fun h0 => absurd h0 (by omega)⟩
    · have h0 := countCurrent_eq_zero_of_no_anchor parse today l hl0 ha
      refine ⟨by omega, fun hi => absurd hi (by omega), fun _ c hc => ?_⟩
      by_contra hup
      have hup2 : couponUpcoming parse today c = true := by
        revert hup
        cases couponUpcoming parse today c <;> simp
      exact ha (List.findIdx_lt_length_of_exists
        ⟨c, (selectWindow_sublist parse today (sortCoupons parse l)).subset hc,
          hup2⟩)

/-- C3 witness: ten records with distinct dates and an anchor in bounds;
the theorem yields exactly one current entry. -/
theorem convert_one_current_witness :
    countCurrent (convertMOEXData demoParse 45 demoList10) = 1 :=
  (convert_one_current demoParse 45 demoList10 (by decide)).2.1 (by decide)

theorem convert_all_past_general (parse : String → Option Int) (today : Int)
    (l : List RawCoupon) (hl0 : ¬ l.length = 0)
    (hpast : ∀ c ∈ l, couponUpcoming parse today c = false) :
    firstUpcomingIdx parse today (sortCoupons parse l) = l.length ∧
    currentCouponDateOf parse today (sortCoupons parse l) = none ∧
    convertMOEXData parse today l =
      ((sortCoupons parse l).drop (l.length - 2)).map
        (couponEntry parse today none) := by
  have hsl := sortCoupons_length parse l
  have hall : ∀ c ∈ sortCoupons parse l, couponUpcoming parse today c = false :=
    fun c hc => hpast c ((sortCoupons_perm parse l).mem_iff.mp hc)
  have hi : firstUpcomingIdx parse today (sortCoupons parse l) =
      (sortCoupons parse l).length := List.findIdx_eq_length_of_false hall
  have hccd : currentCouponDateOf parse today (sortCoupons parse l) = none := by
    simp only [currentCouponDateOf]
    rw [List.getElem?_eq_none (le_of_eq hi.symm)]
    rfl
  refine ⟨hi.trans hsl, hccd, ?_⟩
  simp only [convertMOEXData, if_neg hl0]
  rw [hccd]
  congr 1
  have he : endIdxTS l.length l.length = l.length := by
    unfold endIdxTS startIdx
    split <;> omega
  simp only [selectWindow, sliceWindow, hi, hsl, startIdx, he]
  exact List.take_of_length_le (by simp [List.length_drop, hsl])

/-- C4 (code-bug evidence): three records all strictly before today.  The
code does set the anchor sentinel to the length, yields no
`currentCouponDate` and flags nothing current, but the returned window
holds only the last 2 past records (`slice(length - 2, length)`), not the
last up-to-5 the sources promise ("if all coupons are past, take the last
5"). -/
theorem convert_all_past_last_two :
    demoList3.length = 3 ∧
    firstUpcomingIdx demoParse 100 (sortCoupons demoParse demoList3) = 3 ∧
    currentCouponDateOf demoParse 100 (sortCoupons demoParse demoList3) = none ∧
    (convertMOEXData demoParse 100 demoList3).length = 2 ∧
    (∀ e ∈ convertMOEXData demoParse 100 demoList3, e.current = false) := by
  decide

/-- C5 counterexample: ten records at days 0, 10, ..., 90 (already
ascending), today = 45 strictly between record 4 (day 40) and record 5
(day 50).  Record 2 (day 20, rendered "21.01.1970") is not in the
returned window, so the window is not records[2..7]: `startIndex` is
max(0, 5 - 2) = 3. -/
theorem convert_ten_records_cx :
    formatDate demoParse "d20" = "21.01.1970" ∧
    (convertMOEXData demoParse 45 demoList10).length = 5 ∧
    (∀ e ∈ convertMOEXData demoParse 45 demoList10,
      e.paymentDate ≠ "21.01.1970") := by decide

/-- C5 (amended): for the ten monthly records with today strictly between
record 4 and record 5, `convertMOEXData` returns records[3..7] (5
entries): records 3 and 4 disabled, record 5 current, records 6 and 7
with neither flag. -/
theorem convert_ten_records :
    (convertMOEXData demoParse 45 demoList10).map
      (fun e => (e.paymentDate, e.current, e.disabled)) =
      [(formatDate demoParse "d30", false, true),
       (formatDate demoParse "d40", false, true),
       (formatDate demoParse "d50", true, false),
       (formatDate demoParse "d60", false, false),
       (formatDate demoParse "d70", false, false)] := by decide

/-- C6 counterexample: a valid record dated day 90 (on or after today = 0)
is found by the first-upcoming search at index 0, but a record with an
unparseable date — which under the claimed policy compares greater than
any valid date, hence also on or after today — is skipped by the search
(the sentinel 1 = length is installed); likewise the sort keeps the
unparseable record in front of a valid record dated day 0 instead of
moving it after every valid date. -/
theorem invalid_date_policy_cx :
    demoParse "BAD" = none ∧
    demoParse "d90" = some 90 ∧
    firstUpcomingIdx demoParse 0 [demoCoupon "d90"] = 0 ∧
    firstUpcomingIdx demoParse 0 [badCoupon] = 1 ∧
    sortCoupons demoParse [badCoupon, demoCoupon "d0"] =
      [badCoupon, demoCoupon "d0"] := by decide

/-- C6 (amended): the treatment of an unparseable date is deterministic
but not "greater than any valid date": the comparator ties it with every
record (NaN result treated as +0, stable sort keeps relative order), and
the first-upcoming search treats it as not on-or-after today, never
selecting it as the anchor. -/
theorem invalid_date_policy (parse : String → Option Int) (today : Int)
    (c : RawCoupon) (h : parse c.coupondate = none) :
    (∀ d : RawCoupon, cmpCoupon parse c d = 0 ∧ cmpCoupon parse d c = 0) ∧
    couponUpcoming parse today c = false := by
  refine ⟨fun d => ⟨?_, ?_⟩, ?_⟩
  · cases hd : parse d.coupondate <;> simp [cmpCoupon, h, hd]
  · cases hd : parse d.coupondate <;> simp [cmpCoupon, h, hd]
  · simp [couponUpcoming, h]

/-- C6 witness: the unparseable record ties with a valid record in the
comparator and is not counted as upcoming. -/
theorem invalid_date_policy_witness :
    (cmpCoupon demoParse badCoupon (demoCoupon "d0") = 0 ∧
     cmpCoupon demoParse (demoCoupon "d0") badCoupon = 0) ∧
    couponUpcoming demoParse 0 badCoupon = false :=
  ⟨(invalid_date_policy demoParse 0 badCoupon (by decide)).1 (demoCoupon "d0"),
   (invalid_date_policy demoParse 0 badCoupon (by decide)).2⟩

/-- C7: the currentCouponDate string-equality rule is checked first in
`getCouponStatus`, so a coupon whose date equals `currentCouponDate` is
classified current even when its parsed date equals today exactly — the
upcoming branch is never reached for the anchor. -/
theorem status_anchor_precedence (parse : String → Option Int) (d : String)
    (today : Int) (h : parse d = some today) :
    getCouponStatus parse d today (some d) = "current" ∧
    getCouponStatus parse d today (some d) ≠ "upcoming" := by
  constructor
  · unfold getCouponStatus
    rw [if_pos (by simp)]
  · unfold getCouponStatus
    rw [if_pos (by simp)]
    decide

/-- C7 witness: a coupon dated exactly today (day 10) that is the anchor
is classified current. -/
theorem status_anchor_precedence_witness :
    getCouponStatus demoParse "d10" 10 (some "d10") = "current" :=
  (status_anchor_precedence demoParse "d10" 10 (by decide)).1

theorem convertMOEXData_eq_fromSorted (parse : String → Option Int)
    (today : Int) (l : List RawCoupon) (hl0 : ¬ l.length = 0) :
    convertMOEXData parse today l =
      convertFromSorted parse today (sortCoupons parse l) := by
  simp only [convertMOEXData, convertFromSorted, if_neg hl0]

/-- C8 counterexample: on the records days 50, unparseable, day 0 the
comparator is inconsistent (the unparseable date ties with both
neighbours while day 50 versus day 0 does not tie), so per ECMAScript the
order returned by the engine's sort is implementation-defined — mainstream
engines (TimSort: only tie comparisons are made) return this input
unchanged.  Feeding that conformant order through the program's post-sort
pipeline (the rest of `convertMOEXData`, see
`convertMOEXData_eq_fromSorted`) renders the payment date of day 50
(20.02.1970) before that of day 0 (01.01.1970): the output is not
chronologically non-decreasing, and the selected window violates the
pairwise date order on its parseable entries. -/
theorem convert_chronological_cx :
    cmpCoupon demoParse (demoCoupon "d50") badCoupon = 0 ∧
    cmpCoupon demoParse badCoupon (demoCoupon "d50") = 0 ∧
    cmpCoupon demoParse badCoupon (demoCoupon "d0") = 0 ∧
    cmpCoupon demoParse (demoCoupon "d0") badCoupon = 0 ∧
    cmpCoupon demoParse (demoCoupon "d50") (demoCoupon "d0") = 50 ∧
    (convertFromSorted demoParse 0
      [demoCoupon "d50", badCoupon, demoCoupon "d0"]).map
        (fun e => e.paymentDate) =
      ["20.02.1970", "NaN.NaN.NaN", "01.01.1970"] ∧
    ¬ List.Pairwise (validLe demoParse)
        (selectWindow demoParse 0
          [demoCoupon "d50", badCoupon, demoCoupon "d0"]) := by
  refine ⟨by decide, by decide, by decide, by decide, by decide, by decide,
    fun h => ?_⟩
  have hsel : selectWindow demoParse 0
      [demoCoupon "d50", badCoupon, demoCoupon "d0"] =
      [demoCoupon "d50", badCoupon, demoCoupon "d0"] := by decide
  rw [hsel, List.pairwise_cons] at h
  have h50 : (50 : Int) ≤ 0 :=
    h.1 (demoCoupon "d0") (by decide) 50 0 (by decide) (by decide)
  omega

/-- C8 (amended): for every input whose date strings all parse, the
comparator is consistent, every conformant engine sorts as the embedding
does, and the output of `convertMOEXData` is the order-preserving image
of a record sequence that is pairwise chronologically non-decreasing — so
the produced entries appear in non-decreasing date order. -/
theorem convert_chronological (parse : String → Option Int) (today : Int)
    (l : List RawCoupon)
    (hvalid : ∀ c ∈ l, (parse c.coupondate).isSome) :
    ∃ sel : List RawCoupon,
      convertMOEXData parse today l =
        sel.map (couponEntry parse today
          (currentCouponDateOf parse today (sortCoupons parse l))) ∧
      sel.Pairwise (validLe parse) := by
  by_cases hl0 : l.length = 0
  · exact ⟨[], by simp [convertMOEXData, hl0], List.Pairwise.nil⟩
  · refine ⟨selectWindow parse today (sortCoupons parse l), ?_, ?_⟩
    · have hne : l ≠ [] := fun he => hl0 (by simp [he])
      simp [convertMOEXData, hl0, hne]
    · exact List.Pairwise.sublist
        (selectWindow_sublist parse today (sortCoupons parse l))
        (pairwise_sortCoupons parse l hvalid)

/-- C8 witness: ten all-parseable records — the theorem exhibits the
window as a chronologically ordered preimage of the output. -/
theorem convert_chronological_witness :
    ∃ sel : List RawCoupon,
      convertMOEXData demoParse 45 demoList10 =
        sel.map (couponEntry demoParse 45
          (currentCouponDateOf demoParse 45 (sortCoupons demoParse demoList10))) ∧
      sel.Pairwise (validLe demoParse) :=
  convert_chronological demoParse 45 demoList10 (by decide)

/-- C10 counterexample: the two implementations differ.  On five records
with the anchor at sorted index 1 the TypeScript version extends the
clamped window (endIndex = anchor + 5) while the legacy script always
uses anchor + 3; and on a record with falsy valueprc / value_rub the
TypeScript version renders "-" while the legacy template literal renders
"undefined%" / "undefined₽". -/
theorem convert_legacy_cx :
    convertMOEXData demoParse 5 demoList5 ≠
      convertMOEXDataLegacy demoParse 5 demoList5 ∧
    convertMOEXData demoParse 25
        [demoCoupon "d0", demoCoupon "d10", demoCoupon "d20",
         ⟨"d30", none, none⟩] ≠
      convertMOEXDataLegacy demoParse 25
        [demoCoupon "d0", demoCoupon "d10", demoCoupon "d20",
         ⟨"d30", none, none⟩] := by decide

/-- C10 (amended): the implementations agree whenever the anchor index is
at least 3 (the start is not clamped, so both endIndex formulas give
min(length, anchor + 3)) and every record has truthy valueprc and
value_rub fields. -/
theorem convert_legacy_agree (parse : String → Option Int) (today : Int)
    (l : List RawCoupon)
    (h3 : 3 ≤ firstUpcomingIdx parse today (sortCoupons parse l))
    (hfields : ∀ c ∈ l, c.valueprc.isSome ∧ c.value_rub.isSome) :
    convertMOEXData parse today l = convertMOEXDataLegacy parse today l := by
  by_cases hl0 : l.length = 0
  · simp [convertMOEXData, convertMOEXDataLegacy, hl0]
  · simp only [convertMOEXData, convertMOEXDataLegacy, if_neg hl0]
    have hw : selectWindow parse today (sortCoupons parse l) =
        selectWindowLegacy parse today (sortCoupons parse l) := by
      simp only [selectWindow, selectWindowLegacy, endIdxTS, endIdxLegacy]
      rw [if_neg (show ¬ (startIdx (firstUpcomingIdx parse today
        (sortCoupons parse l)) = 0) by unfold startIdx; omega)]
    rw [hw]
    refine List.map_congr_left (fun c hc => ?_)
    have hcl : c ∈ l := (sortCoupons_perm parse l).mem_iff.mp
      ((selectWindow_sublist parse today (sortCoupons parse l)).subset
        (hw ▸ hc))
    obtain ⟨hv, hwb⟩ := hfields c hcl
    obtain ⟨v, hv⟩ := Option.isSome_iff_exists.mp hv
    obtain ⟨w, hwb⟩ := Option.isSome_iff_exists.mp hwb
    simp [couponEntry, couponEntryLegacy, hv, hwb]

/-- C10 witness: ten records with the anchor at index 5 and all fields
present — the two implementations produce the same output. -/
theorem convert_legacy_agree_witness :
    convertMOEXData demoParse 45 demoList10 =
      convertMOEXDataLegacy demoParse 45 demoList10 :=
  convert_legacy_agree demoParse 45 demoList10 (by decide) (by decide)
